import Mathlib

/-
Shallow embedding of the cart/order logic of src/app.py (Flask e-commerce app).
Products, carts, users and orders live in MongoDB collections; we model the
collections as Lean lists and the core logic of each request handler as a pure
function on that state.  Prices are Python floats holding decimal currency
amounts; we model them as rationals.  Stocks and quantities are Python ints;
stock can go negative (order placement decrements with no floor), and the
direct-quantity form field is an unvalidated int, so both are modelled as Int.
-/

namespace ECommerce

/-- A document of products_collection (src/app.py initial_products / add_product). -/
structure Product where
  pid : Nat
  name : String
  price : Rat
  stock : Int
  image_url : String
  category : String
deriving DecidableEq

/-- One entry of the items list of a cart (src/app.py add_to_cart, lines 516-523). -/
structure CartItem where
  product_id : Nat
  name : String
  price : Rat
  quantity : Int
  image_url : String
  category : String
deriving DecidableEq

/-- A document of carts_collection (src/app.py get_or_create_cart). -/
structure Cart where
  cid : Nat
  user_id : Option Nat
  items : List CartItem
deriving DecidableEq

/-- A document of orders_collection (src/app.py order_confirmation, lines 729-738). -/
structure Order where
  oid : Nat
  user_id : Nat
  order_items : List CartItem
  total_amount : Rat
  status : String
deriving DecidableEq

/-- The database state: the three collections touched by the cart/order logic,
plus fresh-id counters standing for MongoDB ObjectId generation. -/
structure StoreState where
  products : List Product
  carts : List Cart
  orders : List Order
  nextOrderId : Nat
  nextCartId : Nat
deriving DecidableEq

/-- The Flask session fields used by the cart logic: a logged-in user id and/or
an anonymous cart token (session cart_id). -/
structure Session where
  user_id : Option Nat
  cart_id : Option Nat
deriving DecidableEq

/-- First cart item whose product_id matches, as the Python for-loops over
cart items do (src/app.py lines 500-501, 558-559). -/
def findItem : List CartItem → Nat → Option CartItem
  | [], _ => none
  | it :: rest, pid => if it.product_id = pid then some it else findItem rest pid

/-- products_collection.find_one by _id (first match; ids are unique in Mongo). -/
def findProduct : List Product → Nat → Option Product
  | [], _ => none
  | p :: rest, pid => if p.pid = pid then some p else findProduct rest pid

/-- carts_collection.find_one by _id. -/
def findCartById : List Cart → Nat → Option Cart
  | [], _ => none
  | c :: rest, cid => if c.cid = cid then some c else findCartById rest cid

/-- carts_collection.find_one by user_id. -/
def findCartByUser : List Cart → Nat → Option Cart
  | [], _ => none
  | c :: rest, uid => if c.user_id = some uid then some c else findCartByUser rest uid

/-- The line item snapshot appended by add_to_cart (src/app.py lines 516-523). -/
def snapshotItem (p : Product) (qty : Int) : CartItem :=
  ⟨p.pid, p.name, p.price, qty, p.image_url, p.category⟩

/-- Core of add_to_cart (src/app.py lines 499-523): walk the cart items; the
first item matching the product either blocks the add (stock ceiling) or is
incremented; with no match, the add is blocked when qty exceeds stock and
otherwise a snapshot line item is appended.  `none` means the handler returned
without writing the cart (warning flash); `some items2` is the persisted list. -/
def add_to_cart (p : Product) (qty : Int) : List CartItem → Option (List CartItem)
  | [] =>
    if qty > p.stock then none
    else some [snapshotItem p qty]
  | it :: rest =>
    if it.product_id = p.pid then
      if it.quantity + qty > p.stock then none
      else some ({ it with quantity := it.quantity + qty } :: rest)
    else
      (add_to_cart p qty rest).map (fun items2 => it :: items2)

/-- The action form field of update_cart_quantity (src/app.py lines 563-568). -/
inductive QtyAction where
  | increase
  | decrease
  | direct (n : Int)
deriving DecidableEq

/-- new_quantity as computed in update_cart_quantity (src/app.py lines 563-568). -/
def newQuantity (a : QtyAction) (current : Int) : Int :=
  match a with
  | .increase => current + 1
  | .decrease => current - 1
  | .direct n => n

/-- Core loop of update_cart_quantity (src/app.py lines 557-585): the first
item matching the product is removed (new quantity ≤ 0), clamped to stock
(new quantity > stock) or set exactly; `none` means the item was not found in
the cart, in which case the handler warns and performs no write. -/
def update_cart_quantity (stock : Int) (pid : Nat) (a : QtyAction) :
    List CartItem → Option (List CartItem)
  | [] => none
  | it :: rest =>
    if it.product_id = pid then
      let nq := newQuantity a it.quantity
      if nq ≤ 0 then some rest
      else if nq > stock then some ({ it with quantity := stock } :: rest)
      else some ({ it with quantity := nq } :: rest)
    else
      (update_cart_quantity stock pid a rest).map (fun items2 => it :: items2)

/-- Removal of the first item with the given product id, for stating what the
`new_quantity ≤ 0` branch of update_cart_quantity does. -/
def removeFirstItem : List CartItem → Nat → List CartItem
  | [], _ => []
  | it :: rest, pid =>
    if it.product_id = pid then rest else it :: removeFirstItem rest pid

/-- Outcome of a full update_cart_quantity request (src/app.py lines 538-602),
distinguishing the flash category of the handler and whether a write happened. -/
inductive UpdateOutcome where
  | errorCartEmpty
  | errorProductNotFound
  | warnNotInCart
  | written (items : List CartItem)
deriving DecidableEq

/-- The update_cart_quantity handler (src/app.py lines 538-602): an empty (or
missing) cart is an error flash with no write; a product id absent from the
catalog is an error flash with no write; a product absent from the cart is a
warning flash with no write; otherwise the mutated item list is persisted. -/
def update_cart_quantity_route (products : List Product) (pid : Nat)
    (a : QtyAction) (items : List CartItem) : UpdateOutcome :=
  if items = [] then .errorCartEmpty
  else
    match findProduct products pid with
    | none => .errorProductNotFound
    | some pr =>
      match update_cart_quantity pr.stock pid a items with
      | none => .warnNotInCart
      | some items2 => .written items2

/-- remove_all_from_cart (src/app.py lines 612-640): keep the items whose
product id differs. -/
def remove_all_from_cart (pid : Nat) (items : List CartItem) : List CartItem :=
  items.filter (fun it => it.product_id ≠ pid)

/-- reset_cart (src/app.py lines 660-677): the persisted item list becomes []. -/
def reset_cart_items (_items : List CartItem) : List CartItem := []

/-- Python dict membership test (k in current_user_items_map) on the insertion
ordered association list standing for the dict. -/
def hasKey : List (Nat × CartItem) → Nat → Bool
  | [], _ => false
  | e :: rest, k => if e.1 = k then true else hasKey rest k

/-- Python dict lookup current_user_items_map[k]: first (hence only) entry. -/
def alistFind : List (Nat × CartItem) → Nat → Option CartItem
  | [], _ => none
  | e :: rest, k => if e.1 = k then some e.2 else alistFind rest k

/-- Python dict assignment current_user_items_map[k] = v: replace the value in
place when the key exists, append the pair otherwise (insertion order kept). -/
def dictInsert (m : List (Nat × CartItem)) (k : Nat) (v : CartItem) :
    List (Nat × CartItem) :=
  if hasKey m k then
    m.map (fun e => if e.1 = k then (k, v) else e)
  else m ++ [(k, v)]

/-- The dict comprehension building current_user_items_map from the user cart
(src/app.py line 880). -/
def buildMap (items : List CartItem) : List (Nat × CartItem) :=
  items.foldl (fun m it => dictInsert m it.product_id it) []

/-- One iteration of the merge loop (src/app.py lines 882-889): an anonymous
item whose product id is already a key adds its quantity to the mapped entry,
otherwise it is inserted as a new entry. -/
def mergeStep (m : List (Nat × CartItem)) (a : CartItem) : List (Nat × CartItem) :=
  if hasKey m a.product_id then
    m.map (fun e =>
      if e.1 = a.product_id then
        (e.1, { e.2 with quantity := e.2.quantity + a.quantity })
      else e)
  else m ++ [(a.product_id, a)]

/-- The login-time cart merge (src/app.py lines 874-898): fold the anonymous
items into the map built from the user cart, then take the dict values. -/
def merge_items (userItems anonItems : List CartItem) : List CartItem :=
  (anonItems.foldl mergeStep (buildMap userItems)).map (fun e => e.2)

/-- Expected merged entry for one product: absent from the anonymous cart keeps
the user entry; absent from the user cart takes the anonymous entry; present in
both sums the quantities into the user entry.  Used to state the merge lemmas. -/
def mergedVal : Option CartItem → Option CartItem → Option CartItem
  | mv, none => mv
  | none, some a => some a
  | some v, some a => some { v with quantity := v.quantity + a.quantity }

/-- Every dict entry value carries its key as product id; holds for the maps
built and folded by the merge and lets dict lookups transfer to the values list. -/
def valsConsistent (m : List (Nat × CartItem)) : Prop :=
  ∀ e ∈ m, e.2.product_id = e.1

/-- order_total = sum(item price * item quantity) (src/app.py line 722). -/
def orderTotal (items : List CartItem) : Rat :=
  items.foldl (fun acc it => acc + it.price * (it.quantity : Rat)) 0

/-- products_collection.update_one with $inc stock by -qty (src/app.py lines
748-751): decrement the stock of the first product matching the id. -/
def decStock : List Product → Nat → Int → List Product
  | [], _, _ => []
  | p :: rest, pid, qty =>
    if p.pid = pid then { p with stock := p.stock - qty } :: rest
    else p :: decStock rest pid qty

/-- Step 2 of order placement (src/app.py lines 746-751): one stock decrement
per ordered line item. -/
def decStocks (products : List Product) (items : List CartItem) : List Product :=
  items.foldl (fun ps it => decStock ps it.product_id it.quantity) products

/-- carts_collection.update_one setting the items of the cart with this id. -/
def setCartItems : List Cart → Nat → List CartItem → List Cart
  | [], _, _ => []
  | c :: rest, cid, items =>
    if c.cid = cid then { c with items := items } :: rest
    else c :: setCartItems rest cid items

/-- order_confirmation (src/app.py lines 707-769): an empty cart is rejected
with no state change; otherwise an order holding a copy of the cart items and
their total is recorded, the product stock of each line is decremented by the line
quantity, and the originating cart is emptied. -/
def order_confirmation (s : StoreState) (uid : Nat) (cart : Cart) : StoreState :=
  if cart.items = [] then s
  else
    let order : Order :=
      ⟨s.nextOrderId, uid, cart.items, orderTotal cart.items, "Pending"⟩
    { products := decStocks s.products cart.items
      carts := setCartItems s.carts cart.cid []
      orders := s.orders ++ [order]
      nextOrderId := s.nextOrderId + 1
      nextCartId := s.nextCartId }

/-- A later change to the price of a product (products_collection.update_one with
$set, as initialize_products_and_users performs, src/app.py lines 215-220):
only the products collection is touched. -/
def update_product_price (s : StoreState) (pid : Nat) (newPrice : Rat) : StoreState :=
  { s with
    products := s.products.map (fun p =>
      if p.pid = pid then { p with price := newPrice } else p) }

/-- A later cart mutation: every cart-mutating handler persists via
carts_collection.update_one setting the items list (src/app.py lines 526-529,
587-590, 631-634, 666-669, 754-757), touching no other collection. -/
def mutate_cart (s : StoreState) (cid : Nat) (newItems : List CartItem) : StoreState :=
  { s with carts := setCartItems s.carts cid newItems }

/-- get_or_create_cart (src/app.py lines 274-333): a logged-in user gets their
cart by user id, created empty when absent; an anonymous visitor gets the cart
named by the session token provided it exists and is anonymous, and otherwise
a fresh anonymous cart is created and its id stored as the new token. -/
def get_or_create_cart (s : StoreState) (sess : Session) :
    Cart × StoreState × Session :=
  match sess.user_id with
  | some uid =>
    match findCartByUser s.carts uid with
    | some c => (c, s, sess)
    | none =>
      let c : Cart := ⟨s.nextCartId, some uid, []⟩
      (c, { s with carts := s.carts ++ [c], nextCartId := s.nextCartId + 1 }, sess)
  | none =>
    let found : Option Cart :=
      match sess.cart_id with
      | some cid =>
        (findCartById s.carts cid).bind
          (fun c => if c.user_id = none then some c else none)
      | none => none
    match found with
    | some c => (c, s, sess)
    | none =>
      let c : Cart := ⟨s.nextCartId, none, []⟩
      (c, { s with carts := s.carts ++ [c], nextCartId := s.nextCartId + 1 },
        { sess with cart_id := some s.nextCartId })

/-! ### Helper lemmas about stock decrement and cart replacement -/

theorem findProduct_decStock_self (ps : List Product) (pid : Nat) (qty : Int) :
    findProduct (decStock ps pid qty) pid =
      (findProduct ps pid).map (fun p => { p with stock := p.stock - qty }) := by
  induction ps with
  | nil => rfl
  | cons p rest ih =>
    by_cases h : p.pid = pid
    · simp [decStock, findProduct, h]
    · simp [decStock, findProduct, h, ih]

theorem findProduct_decStock_ne (ps : List Product) (pid : Nat) (qty : Int)
    (q : Nat) (hne : pid ≠ q) :
    findProduct (decStock ps pid qty) q = findProduct ps q := by
  induction ps with
  | nil => rfl
  | cons p rest ih =>
    by_cases h : p.pid = pid
    · simp [decStock, findProduct, h, hne]
    · by_cases h2 : p.pid = q
      · simp [decStock, findProduct, h, h2, Ne.symm hne]
      · simp [decStock, findProduct, h, h2, ih]

theorem findProduct_decStocks_not_mem (items : List CartItem) (ps : List Product)
    (q : Nat) (h : q ∉ items.map (fun it => it.product_id)) :
    findProduct (decStocks ps items) q = findProduct ps q := by
  induction items generalizing ps with
  | nil => rfl
  | cons a rest ih =>
    simp only [List.map_cons, List.mem_cons] at h
    push_neg at h
    have step : decStocks ps (a :: rest) =
        decStocks (decStock ps a.product_id a.quantity) rest := rfl
    rw [step, ih _ h.2, findProduct_decStock_ne _ _ _ _ (fun he => h.1 he.symm)]

theorem findProduct_decStocks_mem (items : List CartItem) (ps : List Product)
    (it : CartItem) (hnd : (items.map (fun x => x.product_id)).Nodup)
    (hmem : it ∈ items) :
    findProduct (decStocks ps items) it.product_id =
      (findProduct ps it.product_id).map
        (fun p => { p with stock := p.stock - it.quantity }) := by
  induction items generalizing ps with
  | nil => cases hmem
  | cons a rest ih =>
    simp only [List.map_cons, List.nodup_cons] at hnd
    have step : decStocks ps (a :: rest) =
        decStocks (decStock ps a.product_id a.quantity) rest := rfl
    rcases List.mem_cons.mp hmem with heq | hmem2
    · subst heq
      have hnot : it.product_id ∉ rest.map (fun x => x.product_id) := hnd.1
      rw [step, findProduct_decStocks_not_mem rest _ _ hnot,
        findProduct_decStock_self]
    · have hne : a.product_id ≠ it.product_id := by
        intro he
        exact hnd.1 (he ▸ List.mem_map_of_mem (fun x => x.product_id) hmem2)
      rw [step, ih _ hnd.2 hmem2, findProduct_decStock_ne _ _ _ _ hne]

theorem findCartById_setCartItems_self (cs : List Cart) (cid : Nat)
    (items : List CartItem) :
    findCartById (setCartItems cs cid items) cid =
      (findCartById cs cid).map (fun c => { c with items := items }) := by
  induction cs with
  | nil => rfl
  | cons c rest ih =>
    by_cases h : c.cid = cid
    · simp [setCartItems, findCartById, h]
    · simp [setCartItems, findCartById, h, ih]

/-! ### C5 -/

/-- C5: placing an order with an empty cart is rejected by the guard at
src/app.py lines 712-714: no order is created, no stock is decremented, the
whole store state is unchanged. -/
theorem c5_empty_cart_order_is_noop (s : StoreState) (uid : Nat) (cart : Cart)
    (h : cart.items = []) : order_confirmation s uid cart = s := by
  simp [order_confirmation, h]

theorem c5_empty_cart_order_is_noop_witness :
    (Cart.mk 0 none []).items = [] ∧
      order_confirmation ⟨[], [], [], 0, 0⟩ 1 (Cart.mk 0 none []) = ⟨[], [], [], 0, 0⟩ :=
  ⟨rfl, c5_empty_cart_order_is_noop ⟨[], [], [], 0, 0⟩ 1 (Cart.mk 0 none []) rfl⟩

/-! ### C1 -/

/-- C1: a placed order stores exactly the item snapshot of the cart and a total that
equals the fold of price times quantity over that snapshot, and any later
product price change or cart mutation leaves the orders collection — hence the
total and items of the placed order — untouched. -/
theorem c1_order_total_snapshot_immutable (s : StoreState) (uid : Nat)
    (cart : Cart) (h : cart.items ≠ []) :
    ∃ o : Order,
      (order_confirmation s uid cart).orders = s.orders ++ [o] ∧
      o.order_items = cart.items ∧
      o.total_amount = orderTotal o.order_items ∧
      (∀ pid price,
        (update_product_price (order_confirmation s uid cart) pid price).orders =
          s.orders ++ [o]) ∧
      (∀ cid newItems,
        (mutate_cart (order_confirmation s uid cart) cid newItems).orders =
          s.orders ++ [o]) := by
  refine ⟨⟨s.nextOrderId, uid, cart.items, orderTotal cart.items, "Pending"⟩,
    ?_, rfl, rfl, ?_, ?_⟩ <;>
    simp [order_confirmation, update_product_price, mutate_cart, h]

theorem c1_order_total_snapshot_immutable_witness :
    ∃ o : Order,
      (order_confirmation ⟨[⟨1, "A", 100, 5, "", ""⟩], [⟨7, some 1, [⟨1, "A", 100, 2, "", ""⟩]⟩], [], 0, 8⟩
          1 ⟨7, some 1, [⟨1, "A", 100, 2, "", ""⟩]⟩).orders = [] ++ [o] ∧
      o.order_items = (Cart.mk 7 (some 1) [⟨1, "A", 100, 2, "", ""⟩]).items ∧
      o.total_amount = orderTotal o.order_items ∧
      (∀ pid price,
        (update_product_price (order_confirmation ⟨[⟨1, "A", 100, 5, "", ""⟩], [⟨7, some 1, [⟨1, "A", 100, 2, "", ""⟩]⟩], [], 0, 8⟩
            1 ⟨7, some 1, [⟨1, "A", 100, 2, "", ""⟩]⟩) pid price).orders = [] ++ [o]) ∧
      (∀ cid newItems,
        (mutate_cart (order_confirmation ⟨[⟨1, "A", 100, 5, "", ""⟩], [⟨7, some 1, [⟨1, "A", 100, 2, "", ""⟩]⟩], [], 0, 8⟩
            1 ⟨7, some 1, [⟨1, "A", 100, 2, "", ""⟩]⟩) cid newItems).orders = [] ++ [o]) :=
  c1_order_total_snapshot_immutable _ 1 _ (by decide)

/-! ### C4 -/

/-- C4: placing an order on a non-empty cart records the order, decrements each
stock of each referenced product by exactly the quantity of the line (plain subtraction on
Int, no lower floor), and empties the originating cart; the concrete cart
[(price 100, qty 2), (price 50, qty 1)] totals 250. -/
theorem c4_order_effects (s : StoreState) (uid : Nat) (cart : Cart)
    (h : cart.items ≠ [])
    (hnd : (cart.items.map (fun it => it.product_id)).Nodup) :
    (order_confirmation s uid cart).orders =
      s.orders ++ [⟨s.nextOrderId, uid, cart.items, orderTotal cart.items, "Pending"⟩] ∧
    (∀ it ∈ cart.items,
      findProduct (order_confirmation s uid cart).products it.product_id =
        (findProduct s.products it.product_id).map
          (fun p => { p with stock := p.stock - it.quantity })) ∧
    findCartById (order_confirmation s uid cart).carts cart.cid =
      (findCartById s.carts cart.cid).map (fun c => { c with items := [] }) ∧
    orderTotal [⟨1, "A", 100, 2, "", ""⟩, ⟨2, "B", 50, 1, "", ""⟩] = 250 := by
  refine ⟨?_, ?_, ?_, ?_⟩
  · simp [order_confirmation, h]
  · intro it hit
    simp only [order_confirmation, h, if_neg (by exact h)]
    exact findProduct_decStocks_mem cart.items s.products it hnd hit
  · simp only [order_confirmation, h, if_neg (by exact h)]
    exact findCartById_setCartItems_self s.carts cart.cid []
  · norm_num [orderTotal]

theorem c4_order_effects_witness :
    (order_confirmation ⟨[⟨1, "A", 100, 5, "", ""⟩, ⟨2, "B", 50, 4, "", ""⟩],
        [⟨7, some 1, [⟨1, "A", 100, 2, "", ""⟩, ⟨2, "B", 50, 1, "", ""⟩]⟩], [], 0, 8⟩ 1
        ⟨7, some 1, [⟨1, "A", 100, 2, "", ""⟩, ⟨2, "B", 50, 1, "", ""⟩]⟩).orders =
      [] ++ [⟨0, 1, [⟨1, "A", 100, 2, "", ""⟩, ⟨2, "B", 50, 1, "", ""⟩],
        orderTotal [⟨1, "A", 100, 2, "", ""⟩, ⟨2, "B", 50, 1, "", ""⟩], "Pending"⟩] ∧
    (∀ it ∈ (Cart.mk 7 (some 1) [⟨1, "A", 100, 2, "", ""⟩, ⟨2, "B", 50, 1, "", ""⟩]).items,
      findProduct (order_confirmation ⟨[⟨1, "A", 100, 5, "", ""⟩, ⟨2, "B", 50, 4, "", ""⟩],
          [⟨7, some 1, [⟨1, "A", 100, 2, "", ""⟩, ⟨2, "B", 50, 1, "", ""⟩]⟩], [], 0, 8⟩ 1
          ⟨7, some 1, [⟨1, "A", 100, 2, "", ""⟩, ⟨2, "B", 50, 1, "", ""⟩]⟩).products it.product_id =
        (findProduct [⟨1, "A", 100, 5, "", ""⟩, ⟨2, "B", 50, 4, "", ""⟩] it.product_id).map
          (fun p => { p with stock := p.stock - it.quantity })) ∧
    findCartById (order_confirmation ⟨[⟨1, "A", 100, 5, "", ""⟩, ⟨2, "B", 50, 4, "", ""⟩],
        [⟨7, some 1, [⟨1, "A", 100, 2, "", ""⟩, ⟨2, "B", 50, 1, "", ""⟩]⟩], [], 0, 8⟩ 1
        ⟨7, some 1, [⟨1, "A", 100, 2, "", ""⟩, ⟨2, "B", 50, 1, "", ""⟩]⟩).carts 7 =
      (findCartById [⟨7, some 1, [⟨1, "A", 100, 2, "", ""⟩, ⟨2, "B", 50, 1, "", ""⟩]⟩] 7).map
        (fun c => { c with items := [] }) ∧
    orderTotal [⟨1, "A", 100, 2, "", ""⟩, ⟨2, "B", 50, 1, "", ""⟩] = 250 :=
  c4_order_effects _ 1 _ (by decide) (by decide)

/-! ### C6 -/

/-- C6: add_to_cart case analysis (src/app.py lines 499-535).  With a line item
already present for the product, the add is rejected exactly when the summed
quantity would exceed stock and otherwise increments that line; with no line
item present, the add is rejected exactly when qty exceeds stock and otherwise
appends a snapshot of the current product name, price, image and category. -/
theorem c6_add_to_cart_cases (p : Product) (qty : Int) (items : List CartItem)
    (hpos : 1 ≤ qty) :
    (∀ it, findItem items p.pid = some it →
      (it.quantity + qty > p.stock → add_to_cart p qty items = none) ∧
      (¬ it.quantity + qty > p.stock →
        ∃ items2, add_to_cart p qty items = some items2 ∧
          findItem items2 p.pid = some { it with quantity := it.quantity + qty })) ∧
    (findItem items p.pid = none →
      (qty > p.stock → add_to_cart p qty items = none) ∧
      (¬ qty > p.stock →
        add_to_cart p qty items = some (items ++ [snapshotItem p qty]))) := by
  induction items with
  | nil =>
    refine ⟨(fun it h => nomatch h), fun _ => ⟨?_, ?_⟩⟩
    · intro hov; simp [add_to_cart, hov]
    · intro hov; simp [add_to_cart, hov]
  | cons it0 rest ih =>
    by_cases h : it0.product_id = p.pid
    · refine ⟨?_, ?_⟩
      · intro it hfind
        rw [findItem, if_pos h] at hfind
        injection hfind with he
        subst he
        refine ⟨?_, ?_⟩
        · intro hov; simp [add_to_cart, h, hov]
        · intro hov
          refine ⟨{ it0 with quantity := it0.quantity + qty } :: rest, ?_, ?_⟩
          · simp [add_to_cart, h, hov]
          · simp [findItem, h]
      · intro hfind
        rw [findItem, if_pos h] at hfind
        cases hfind
    · have hstep : add_to_cart p qty (it0 :: rest) =
          (add_to_cart p qty rest).map (fun items2 => it0 :: items2) := by
        simp [add_to_cart, h]
      have hfindstep : findItem (it0 :: rest) p.pid = findItem rest p.pid := by
        simp [findItem, h]
      refine ⟨?_, ?_⟩
      · intro it hfind
        rw [hfindstep] at hfind
        obtain ⟨hover, hnot⟩ := ih.1 it hfind
        refine ⟨?_, ?_⟩
        · intro hov; rw [hstep, hover hov]; rfl
        · intro hov
          obtain ⟨items2, hi, hf⟩ := hnot hov
          exact ⟨it0 :: items2, by rw [hstep, hi]; rfl, by simp [findItem, h, hf]⟩
      · intro hfind
        rw [hfindstep] at hfind
        obtain ⟨hover, hnot⟩ := ih.2 hfind
        refine ⟨?_, ?_⟩
        · intro hov; rw [hstep, hover hov]; rfl
        · intro hov; rw [hstep, hnot hov]; rfl

theorem c6_add_to_cart_cases_witness :
    ∃ items2,
      add_to_cart ⟨1, "A", 10, 5, "", ""⟩ 2 [⟨1, "A", 10, 1, "", ""⟩] = some items2 ∧
      findItem items2 1 = some ⟨1, "A", 10, 3, "", ""⟩ := by
  obtain ⟨items2, h1, h2⟩ :=
    ((c6_add_to_cart_cases ⟨1, "A", 10, 5, "", ""⟩ 2 [⟨1, "A", 10, 1, "", ""⟩]
        (by decide)).1 ⟨1, "A", 10, 1, "", ""⟩ (by decide)).2 (by decide)
  exact ⟨items2, h1, h2⟩

/-! ### C7 -/

/-- C7: when the new quantity computed by update_cart_quantity is zero or less,
the matched line item is removed from the list (src/app.py lines 570-573) and
the item list length decreases by exactly one. -/
theorem c7_nonpositive_quantity_removes (stock : Int) (pid : Nat) (a : QtyAction)
    (items : List CartItem) (it : CartItem)
    (hfound : findItem items pid = some it)
    (hnq : newQuantity a it.quantity ≤ 0) :
    update_cart_quantity stock pid a items = some (removeFirstItem items pid) ∧
    (removeFirstItem items pid).length + 1 = items.length := by
  induction items with
  | nil => cases hfound
  | cons it0 rest ih =>
    by_cases h : it0.product_id = pid
    · rw [findItem, if_pos h] at hfound
      injection hfound with he
      subst he
      constructor
      · simp [update_cart_quantity, removeFirstItem, h, hnq]
      · simp [removeFirstItem, h]
    · rw [findItem, if_neg h] at hfound
      obtain ⟨h1, h2⟩ := ih hfound
      constructor
      · simp [update_cart_quantity, removeFirstItem, h, h1]
      · simp only [removeFirstItem, if_neg h, List.length_cons]
        omega

theorem c7_nonpositive_quantity_removes_witness :
    update_cart_quantity 5 1 (QtyAction.direct 0) [⟨1, "A", 10, 2, "", ""⟩] =
      some (removeFirstItem [⟨1, "A", 10, 2, "", ""⟩] 1) ∧
    (removeFirstItem [⟨1, "A", 10, 2, "", ""⟩] 1).length + 1 =
      [(⟨1, "A", 10, 2, "", ""⟩ : CartItem)].length :=
  c7_nonpositive_quantity_removes 5 1 (QtyAction.direct 0) _ ⟨1, "A", 10, 2, "", ""⟩
    (by decide) (by decide)

/-! ### C8 -/

/-- C8 counterexample: the claim says a resulting quantity strictly greater
than the current stock is clamped to the stock, but the removal branch is
checked first (src/app.py lines 570-577): with stock -2 (reachable because
order placement decrements stock with no floor) and direct quantity -1, the
resulting quantity -1 exceeds the stock -2, yet the line item is removed
instead of being persisted with quantity -2. -/
theorem c8_counterexample :
    newQuantity (QtyAction.direct (-1)) 1 > (-2 : Int) ∧
    update_cart_quantity (-2) 1 (QtyAction.direct (-1)) [⟨1, "A", 10, 1, "", ""⟩] =
      some [] ∧
    findItem [] 1 = none := by
  exact ⟨by decide, by decide, rfl⟩

/-- C8 amended: for a line item present in the cart, a resulting quantity that
is at least 1 and strictly greater than the product stock is clamped to
exactly the stock (warning, not a failure), and a resulting quantity between 1
and the stock is stored exactly; a resulting quantity of 0 or less instead
removes the line item. -/
theorem c8_clamp_or_exact (stock : Int) (pid : Nat) (a : QtyAction)
    (items : List CartItem) (it : CartItem)
    (hfound : findItem items pid = some it) :
    (1 ≤ newQuantity a it.quantity → newQuantity a it.quantity > stock →
      ∃ items2, update_cart_quantity stock pid a items = some items2 ∧
        findItem items2 pid = some { it with quantity := stock }) ∧
    (1 ≤ newQuantity a it.quantity → newQuantity a it.quantity ≤ stock →
      ∃ items2, update_cart_quantity stock pid a items = some items2 ∧
        findItem items2 pid = some { it with quantity := newQuantity a it.quantity }) := by
  induction items with
  | nil => cases hfound
  | cons it0 rest ih =>
    by_cases h : it0.product_id = pid
    · rw [findItem, if_pos h] at hfound
      injection hfound with he
      subst he
      constructor
      · intro h1 h2
        have hn : ¬ newQuantity a it0.quantity ≤ 0 := by omega
        refine ⟨{ it0 with quantity := stock } :: rest, ?_, ?_⟩
        · simp [update_cart_quantity, h, hn, h2]
        · simp [findItem, h]
      · intro h1 h2
        have hn : ¬ newQuantity a it0.quantity ≤ 0 := by omega
        have hn2 : ¬ newQuantity a it0.quantity > stock := by omega
        refine ⟨{ it0 with quantity := newQuantity a it0.quantity } :: rest, ?_, ?_⟩
        · simp [update_cart_quantity, h, hn, hn2]
        · simp [findItem, h]
    · rw [findItem, if_neg h] at hfound
      obtain ⟨g1, g2⟩ := ih hfound
      constructor
      · intro h1 h2
        obtain ⟨items2, hu, hf⟩ := g1 h1 h2
        exact ⟨it0 :: items2, by simp [update_cart_quantity, h, hu],
          by simp [findItem, h, hf]⟩
      · intro h1 h2
        obtain ⟨items2, hu, hf⟩ := g2 h1 h2
        exact ⟨it0 :: items2, by simp [update_cart_quantity, h, hu],
          by simp [findItem, h, hf]⟩

theorem c8_clamp_or_exact_witness :
    ∃ items2,
      update_cart_quantity 5 1 (QtyAction.direct 9) [⟨1, "A", 10, 2, "", ""⟩] =
        some items2 ∧
      findItem items2 1 = some ⟨1, "A", 10, 5, "", ""⟩ := by
  obtain ⟨items2, h1, h2⟩ :=
    (c8_clamp_or_exact 5 1 (QtyAction.direct 9) [⟨1, "A", 10, 2, "", ""⟩]
      ⟨1, "A", 10, 2, "", ""⟩ (by decide)).1 (by decide) (by decide)
  exact ⟨items2, h1, h2⟩

/-! ### C10 -/

theorem update_cart_quantity_none_of_not_found (stock : Int) (pid : Nat)
    (a : QtyAction) (items : List CartItem) (h : findItem items pid = none) :
    update_cart_quantity stock pid a items = none := by
  induction items with
  | nil => rfl
  | cons it0 rest ih =>
    by_cases h0 : it0.product_id = pid
    · rw [findItem, if_pos h0] at h; cases h
    · rw [findItem, if_neg h0] at h
      simp [update_cart_quantity, h0, ih h]

/-- C10 counterexample: for a product that exists in the catalog but has no
line item because the cart is empty, the handler reports the error flash for
an empty cart (src/app.py lines 546-548), not the not-in-cart warning the
claim promises for every such cart (no write happens in either case). -/
theorem c10_counterexample :
    findProduct [⟨1, "A", 10, 5, "", ""⟩] 1 = some ⟨1, "A", 10, 5, "", ""⟩ ∧
    findItem ([] : List CartItem) 1 = none ∧
    update_cart_quantity_route [⟨1, "A", 10, 5, "", ""⟩] 1 QtyAction.increase [] =
      UpdateOutcome.errorCartEmpty ∧
    UpdateOutcome.errorCartEmpty ≠ UpdateOutcome.warnNotInCart := by
  refine ⟨by decide, rfl, rfl, by decide⟩

/-- C10 amended: applying update_cart_quantity for a catalog product with no
line item in the cart never writes the cart; it reports the not-in-cart
warning when the cart is non-empty, and the empty-cart error flash when the
cart is empty. -/
theorem c10_absent_product_no_write (products : List Product) (pid : Nat)
    (a : QtyAction) (items : List CartItem) (pr : Product)
    (hcat : findProduct products pid = some pr)
    (hnotin : findItem items pid = none) :
    (items = [] →
      update_cart_quantity_route products pid a items = UpdateOutcome.errorCartEmpty) ∧
    (items ≠ [] →
      update_cart_quantity_route products pid a items = UpdateOutcome.warnNotInCart) := by
  constructor
  · intro he; simp [update_cart_quantity_route, he]
  · intro he
    simp [update_cart_quantity_route, he, hcat,
      update_cart_quantity_none_of_not_found pr.stock pid a items hnotin]

theorem c10_absent_product_no_write_witness :
    update_cart_quantity_route [⟨1, "A", 10, 5, "", ""⟩, ⟨2, "B", 20, 5, "", ""⟩] 2
      QtyAction.increase [⟨1, "A", 10, 1, "", ""⟩] = UpdateOutcome.warnNotInCart :=
  (c10_absent_product_no_write [⟨1, "A", 10, 5, "", ""⟩, ⟨2, "B", 20, 5, "", ""⟩] 2
    QtyAction.increase [⟨1, "A", 10, 1, "", ""⟩] ⟨2, "B", 20, 5, "", ""⟩
    (by decide) (by decide)).2 (by decide)

/-! ### C3 -/

theorem findItem_eq_none_of_not_mem (items : List CartItem) (pid : Nat)
    (h : pid ∉ items.map (fun it => it.product_id)) : findItem items pid = none := by
  induction items with
  | nil => rfl
  | cons it0 rest ih =>
    simp only [List.map_cons, List.mem_cons] at h
    push_neg at h
    rw [findItem, if_neg (fun he => h.1 he.symm)]
    exact ih h.2

theorem add_to_cart_stock_ceiling (p : Product) (qty : Int) :
    ∀ items items2, add_to_cart p qty items = some items2 →
      ∃ it, findItem items2 p.pid = some it ∧ it.quantity ≤ p.stock := by
  intro items
  induction items with
  | nil =>
    intro items2 h
    by_cases hov : qty > p.stock
    · simp [add_to_cart, hov] at h
    · simp only [add_to_cart, if_neg hov, Option.some.injEq] at h
      subst h
      refine ⟨snapshotItem p qty, ?_, ?_⟩
      · simp [findItem, snapshotItem]
      · simp only [snapshotItem]
        omega
  | cons it0 rest ih =>
    intro items2 h
    by_cases h0 : it0.product_id = p.pid
    · by_cases hov : it0.quantity + qty > p.stock
      · simp [add_to_cart, h0, hov] at h
      · simp only [add_to_cart, if_pos h0, if_neg hov, Option.some.injEq] at h
        subst h
        refine ⟨{ it0 with quantity := it0.quantity + qty }, ?_, ?_⟩
        · simp [findItem, h0]
        · show it0.quantity + qty ≤ p.stock
          omega
    · cases hrest : add_to_cart p qty rest with
      | none => simp [add_to_cart, h0, hrest] at h
      | some r =>
        simp only [add_to_cart, if_neg h0, hrest, Option.map_some', Option.some.injEq] at h
        subst h
        obtain ⟨it, hf, hq⟩ := ih r hrest
        exact ⟨it, by simp [findItem, h0, hf], hq⟩

theorem update_cart_quantity_stock_ceiling (stock : Int) (pid : Nat) (a : QtyAction) :
    ∀ items items2, (items.map (fun x => x.product_id)).Nodup →
      update_cart_quantity stock pid a items = some items2 →
      findItem items2 pid = none ∨
        ∃ it, findItem items2 pid = some it ∧ it.quantity ≤ stock := by
  intro items
  induction items with
  | nil => intro items2 _ h; cases h
  | cons it0 rest ih =>
    intro items2 hnd h
    simp only [List.map_cons, List.nodup_cons] at hnd
    by_cases h0 : it0.product_id = pid
    · by_cases hn : newQuantity a it0.quantity ≤ 0
      · simp only [update_cart_quantity, if_pos h0, if_pos hn, Option.some.injEq] at h
        subst h
        left
        exact findItem_eq_none_of_not_mem rest pid (h0 ▸ hnd.1)
      · by_cases hs : newQuantity a it0.quantity > stock
        · simp only [update_cart_quantity, if_pos h0, if_neg hn, if_pos hs,
            Option.some.injEq] at h
          subst h
          right
          exact ⟨{ it0 with quantity := stock }, by simp [findItem, h0], le_refl stock⟩
        · simp only [update_cart_quantity, if_pos h0, if_neg hn, if_neg hs,
            Option.some.injEq] at h
          subst h
          right
          refine ⟨{ it0 with quantity := newQuantity a it0.quantity },
            by simp [findItem, h0], ?_⟩
          show newQuantity a it0.quantity ≤ stock
          omega
    · cases hrest : update_cart_quantity stock pid a rest with
      | none => simp [update_cart_quantity, h0, hrest] at h
      | some r =>
        simp only [update_cart_quantity, if_neg h0, hrest, Option.map_some',
          Option.some.injEq] at h
        subst h
        rcases ih r hnd.2 hrest with hl | ⟨it, hf, hq⟩
        · left; simp [findItem, h0, hl]
        · right; exact ⟨it, by simp [findItem, h0, hf], hq⟩

/-- C3 counterexample: the login-time merge sums quantities with no stock
re-check (src/app.py lines 882-889): a product with stock 5 held with quantity
3 in both the user cart and the anonymous cart merges to a persisted line
quantity of 6, exceeding the stock read at the time of the mutation. -/
theorem c3_merge_exceeds_stock_counterexample :
    (findProduct [⟨1, "A", 100, 5, "", ""⟩] 1).map (fun p => p.stock) = some 5 ∧
    (findItem (merge_items [⟨1, "A", 100, 3, "", ""⟩] [⟨1, "A", 100, 3, "", ""⟩]) 1).map
      (fun it => it.quantity) = some 6 ∧
    ¬ ((6 : Int) ≤ 5) := by
  refine ⟨rfl, rfl, by decide⟩

/-- C3 amended: after add_to_cart the quantity of the mutated line is at most the
stock read at mutation time, after update_cart_quantity the line of the product is
gone or within stock, remove_all_from_cart only drops items and reset empties
the list — but the login-time merge is excluded, because it sums quantities
with no stock re-check and can exceed the stock (see the counterexample). -/
theorem c3_stock_ceiling_per_mutation :
    (∀ p qty items items2, add_to_cart p qty items = some items2 →
      ∃ it, findItem items2 p.pid = some it ∧ it.quantity ≤ p.stock) ∧
    (∀ stock pid a items items2, (items.map (fun x => x.product_id)).Nodup →
      update_cart_quantity stock pid a items = some items2 →
      findItem items2 pid = none ∨
        ∃ it, findItem items2 pid = some it ∧ it.quantity ≤ stock) ∧
    (∀ pid items it, it ∈ remove_all_from_cart pid items → it ∈ items) ∧
    (∀ items, reset_cart_items items = []) :=
  ⟨fun p qty items items2 h => add_to_cart_stock_ceiling p qty items items2 h,
   fun stock pid a items items2 hnd h =>
     update_cart_quantity_stock_ceiling stock pid a items items2 hnd h,
   fun _ items it h => List.mem_of_mem_filter h,
   fun _ => rfl⟩

theorem c3_stock_ceiling_per_mutation_witness :
    ∃ it, findItem [⟨1, "A", 10, 2, "", ""⟩] 1 = some it ∧ it.quantity ≤ 5 :=
  c3_stock_ceiling_per_mutation.1 ⟨1, "A", 10, 5, "", ""⟩ 2 []
    [⟨1, "A", 10, 2, "", ""⟩] (by decide)

/-! ### C2: lemmas about the dict model used by the login-time merge -/

theorem hasKey_eq_false_iff (k : Nat) :
    ∀ m : List (Nat × CartItem), hasKey m k = false ↔ alistFind m k = none := by
  intro m
  induction m with
  | nil => simp [hasKey, alistFind]
  | cons e rest ih =>
    by_cases he : e.1 = k
    · simp [hasKey, alistFind, he]
    · simp [hasKey, alistFind, he, ih]

theorem hasKey_append (k : Nat) (l2 : List (Nat × CartItem)) :
    ∀ m, hasKey (m ++ l2) k = (hasKey m k || hasKey l2 k) := by
  intro m
  induction m with
  | nil => rfl
  | cons e rest ih =>
    by_cases he : e.1 = k <;> simp [hasKey, he, ih]

theorem alistFind_append (k : Nat) (l2 : List (Nat × CartItem)) :
    ∀ m, alistFind (m ++ l2) k =
      match alistFind m k with
      | some v => some v
      | none => alistFind l2 k := by
  intro m
  induction m with
  | nil => rfl
  | cons e rest ih =>
    by_cases he : e.1 = k
    · simp [alistFind, he]
    · simp [alistFind, he, ih]

theorem alistFind_map_update (g : CartItem → CartItem) (k : Nat) :
    ∀ (m : List (Nat × CartItem)) (v : CartItem),
      alistFind m k = some v →
      alistFind (m.map (fun e => if e.1 = k then (e.1, g e.2) else e)) k = some (g v) := by
  intro m
  induction m with
  | nil => intro v h; cases h
  | cons e rest ih =>
    intro v h
    by_cases he : e.1 = k
    · rw [alistFind, if_pos he] at h
      injection h with hv
      subst hv
      simp [alistFind, he]
    · rw [alistFind, if_neg he] at h
      simpa [alistFind, he] using ih v h

theorem alistFind_map_update_ne (g : CartItem → CartItem) (k p : Nat) (hne : k ≠ p) :
    ∀ m : List (Nat × CartItem),
      alistFind (m.map (fun e => if e.1 = k then (e.1, g e.2) else e)) p =
        alistFind m p := by
  intro m
  induction m with
  | nil => rfl
  | cons e rest ih =>
    by_cases he : e.1 = k
    · have hnp : ¬ e.1 = p := by rw [he]; exact hne
      simp [alistFind, he, hnp, hne, ih]
    · by_cases hp : e.1 = p
      · simp [alistFind, he, hp, Ne.symm hne]
      · simp [alistFind, he, hp, ih]

theorem alistFind_mergeStep_ne (m : List (Nat × CartItem)) (a : CartItem) (p : Nat)
    (hne : a.product_id ≠ p) :
    alistFind (mergeStep m a) p = alistFind m p := by
  cases hhk : hasKey m a.product_id with
  | true =>
    rw [mergeStep, if_pos hhk]
    exact alistFind_map_update_ne
      (fun x => { x with quantity := x.quantity + a.quantity }) a.product_id p hne m
  | false =>
    rw [mergeStep, if_neg (by simp [hhk]), alistFind_append]
    cases hm : alistFind m p with
    | some v => rfl
    | none => simp [alistFind, hne]

theorem alistFind_mergeStep_self_some (m : List (Nat × CartItem)) (a : CartItem)
    (v : CartItem) (h : alistFind m a.product_id = some v) :
    alistFind (mergeStep m a) a.product_id =
      some { v with quantity := v.quantity + a.quantity } := by
  cases hhk : hasKey m a.product_id with
  | false =>
    have hn := (hasKey_eq_false_iff a.product_id m).mp hhk
    rw [hn] at h
    cases h
  | true =>
    rw [mergeStep, if_pos hhk]
    exact alistFind_map_update
      (fun x => { x with quantity := x.quantity + a.quantity }) a.product_id m v h

theorem alistFind_mergeStep_self_none (m : List (Nat × CartItem)) (a : CartItem)
    (h : alistFind m a.product_id = none) :
    alistFind (mergeStep m a) a.product_id = some a := by
  cases hhk : hasKey m a.product_id with
  | true =>
    have hn := (hasKey_eq_false_iff a.product_id m).mpr h
    rw [hhk] at hn
    cases hn
  | false =>
    rw [mergeStep, if_neg (by simp [hhk]), alistFind_append, h]
    simp [alistFind]

theorem alistFind_foldl_mergeStep (p : Nat) :
    ∀ (anon : List CartItem) (m : List (Nat × CartItem)),
      (anon.map (fun it => it.product_id)).Nodup →
      alistFind (anon.foldl mergeStep m) p =
        mergedVal (alistFind m p) (findItem anon p) := by
  intro anon
  induction anon with
  | nil =>
    intro m _
    cases h : alistFind m p <;> simp [mergedVal, findItem, h]
  | cons a rest ih =>
    intro m hnd
    simp only [List.map_cons, List.nodup_cons] at hnd
    have hstep : (a :: rest).foldl mergeStep m = rest.foldl mergeStep (mergeStep m a) := rfl
    by_cases hp : a.product_id = p
    · subst hp
      have hrest_none : findItem rest a.product_id = none :=
        findItem_eq_none_of_not_mem rest a.product_id hnd.1
      rw [hstep, ih (mergeStep m a) hnd.2, hrest_none, findItem, if_pos rfl]
      cases hm : alistFind m a.product_id with
      | none => rw [alistFind_mergeStep_self_none m a hm]; rfl
      | some v => rw [alistFind_mergeStep_self_some m a v hm]; rfl
    · rw [hstep, ih (mergeStep m a) hnd.2, alistFind_mergeStep_ne m a p hp,
        findItem, if_neg hp]

theorem foldl_dictInsert_fresh :
    ∀ (items : List CartItem) (m : List (Nat × CartItem)),
      (items.map (fun it => it.product_id)).Nodup →
      (∀ it ∈ items, hasKey m it.product_id = false) →
      items.foldl (fun acc it => dictInsert acc it.product_id it) m =
        m ++ items.map (fun it => (it.product_id, it)) := by
  intro items
  induction items with
  | nil => intro m _ _; simp
  | cons a rest ih =>
    intro m hnd hfresh
    simp only [List.map_cons, List.nodup_cons] at hnd
    have ha : hasKey m a.product_id = false := hfresh a (List.mem_cons_self a rest)
    have hfresh2 : ∀ it ∈ rest, hasKey (m ++ [(a.product_id, a)]) it.product_id = false := by
      intro it hit
      have h1 : hasKey m it.product_id = false := hfresh it (List.mem_cons_of_mem a hit)
      have h2 : ¬ a.product_id = it.product_id := by
        intro he
        exact hnd.1 (he ▸ List.mem_map_of_mem (fun x => x.product_id) hit)
      rw [hasKey_append]
      simp [h1, hasKey, h2]
    have hstep : (a :: rest).foldl (fun acc it => dictInsert acc it.product_id it) m =
        rest.foldl (fun acc it => dictInsert acc it.product_id it)
          (dictInsert m a.product_id a) := rfl
    rw [hstep, dictInsert, if_neg (by simp [ha]), ih (m ++ [(a.product_id, a)]) hnd.2 hfresh2]
    simp

theorem buildMap_eq_of_nodup (items : List CartItem)
    (hnd : (items.map (fun it => it.product_id)).Nodup) :
    buildMap items = items.map (fun it => (it.product_id, it)) := by
  have h := foldl_dictInsert_fresh items [] hnd (fun it _ => rfl)
  simpa [buildMap] using h

theorem alistFind_map_pair (p : Nat) :
    ∀ items : List CartItem,
      alistFind (items.map (fun it => (it.product_id, it))) p = findItem items p := by
  intro items
  induction items with
  | nil => rfl
  | cons a rest ih =>
    by_cases h : a.product_id = p <;> simp [alistFind, findItem, h, ih]

theorem valsConsistent_mergeStep (m : List (Nat × CartItem)) (a : CartItem)
    (h : valsConsistent m) : valsConsistent (mergeStep m a) := by
  intro e he
  rw [mergeStep] at he
  by_cases hhk : hasKey m a.product_id = true
  · rw [if_pos hhk] at he
    obtain ⟨e0, he0, hmap⟩ := List.mem_map.mp he
    by_cases h0 : e0.1 = a.product_id
    · rw [if_pos h0] at hmap
      subst hmap
      simpa using h e0 he0
    · rw [if_neg h0] at hmap
      subst hmap
      exact h e0 he0
  · rw [if_neg hhk] at he
    rcases List.mem_append.mp he with h1 | h2
    · exact h e h1
    · simp only [List.mem_singleton] at h2
      subst h2
      rfl

theorem valsConsistent_foldl (anon : List CartItem) :
    ∀ m, valsConsistent m → valsConsistent (anon.foldl mergeStep m) := by
  induction anon with
  | nil => intro m h; exact h
  | cons a rest ih =>
    intro m h
    exact ih (mergeStep m a) (valsConsistent_mergeStep m a h)

theorem findItem_map_snd (p : Nat) :
    ∀ m : List (Nat × CartItem), valsConsistent m →
      findItem (m.map (fun e => e.2)) p = alistFind m p := by
  intro m
  induction m with
  | nil => intro _; rfl
  | cons e rest ih =>
    intro h
    have hkey : e.2.product_id = e.1 := h e (List.mem_cons_self e rest)
    have hrest : valsConsistent rest := fun x hx => h x (List.mem_cons_of_mem e hx)
    by_cases hp : e.1 = p
    · simp [findItem, alistFind, hkey, hp]
    · simp [findItem, alistFind, hkey, hp, ih hrest]

/-- C2: for carts whose line items have pairwise distinct product ids (as the
cart operations maintain), the login-time merge gives a product present in
both carts a line whose quantity is exactly the sum of the two quantities
(kept on the user entry), and a product present in exactly one cart keeps its
original line item unchanged. -/
theorem c2_merge_sums_quantities (userItems anonItems : List CartItem) (p : Nat)
    (hu : (userItems.map (fun it => it.product_id)).Nodup)
    (ha : (anonItems.map (fun it => it.product_id)).Nodup) :
    (∀ u a, findItem userItems p = some u → findItem anonItems p = some a →
      findItem (merge_items userItems anonItems) p =
        some { u with quantity := u.quantity + a.quantity }) ∧
    (∀ u, findItem userItems p = some u → findItem anonItems p = none →
      findItem (merge_items userItems anonItems) p = some u) ∧
    (∀ a, findItem userItems p = none → findItem anonItems p = some a →
      findItem (merge_items userItems anonItems) p = some a) := by
  have hvc : valsConsistent (buildMap userItems) := by
    rw [buildMap_eq_of_nodup userItems hu]
    intro e he
    obtain ⟨it, _, hpair⟩ := List.mem_map.mp he
    subst hpair
    rfl
  have hvc2 : valsConsistent (anonItems.foldl mergeStep (buildMap userItems)) :=
    valsConsistent_foldl anonItems (buildMap userItems) hvc
  have hbm : alistFind (buildMap userItems) p = findItem userItems p := by
    rw [buildMap_eq_of_nodup userItems hu]
    exact alistFind_map_pair p userItems
  have hmain : findItem (merge_items userItems anonItems) p =
      mergedVal (findItem userItems p) (findItem anonItems p) := by
    rw [merge_items, findItem_map_snd p _ hvc2,
      alistFind_foldl_mergeStep p anonItems (buildMap userItems) ha, hbm]
  refine ⟨?_, ?_, ?_⟩
  · intro u a hu2 ha2; rw [hmain, hu2, ha2]; rfl
  · intro u hu2 ha2; rw [hmain, hu2, ha2]; rfl
  · intro a hu2 ha2; rw [hmain, hu2, ha2]; rfl

theorem c2_merge_sums_quantities_witness :
    findItem (merge_items [⟨1, "A", 10, 2, "", ""⟩] [⟨1, "A", 10, 3, "", ""⟩]) 1 =
      some { (⟨1, "A", 10, 2, "", ""⟩ : CartItem) with quantity := (2 : Int) + 3 } :=
  (c2_merge_sums_quantities [⟨1, "A", 10, 2, "", ""⟩] [⟨1, "A", 10, 3, "", ""⟩] 1
    (by decide) (by decide)).1 ⟨1, "A", 10, 2, "", ""⟩ ⟨1, "A", 10, 3, "", ""⟩ rfl rfl

/-! ### C9 -/

/-- C9: resolving a cart for an anonymous session holding no prior token
creates a fresh anonymous cart with an empty item list, stores its id as the
new session token, and — given that all existing cart ids are below the fresh
id counter — that token differs from every existing cart id; the resolver
returns the created cart rather than failing. -/
theorem c9_fresh_anonymous_cart (s : StoreState) (sess : Session)
    (hanon : sess.user_id = none) (htok : sess.cart_id = none)
    (hids : ∀ c ∈ s.carts, c.cid < s.nextCartId) :
    ∃ c s2 sess2, get_or_create_cart s sess = (c, s2, sess2) ∧
      c.items = [] ∧ c.user_id = none ∧
      sess2.cart_id = some c.cid ∧
      c.cid ∉ s.carts.map (fun c0 => c0.cid) ∧
      c ∈ s2.carts := by
  refine ⟨⟨s.nextCartId, none, []⟩,
    ⟨s.products, s.carts ++ [⟨s.nextCartId, none, []⟩], s.orders,
      s.nextOrderId, s.nextCartId + 1⟩,
    ⟨sess.user_id, some s.nextCartId⟩, ?_, rfl, rfl, rfl, ?_, ?_⟩
  · simp [get_or_create_cart, hanon, htok]
  · intro hmem
    obtain ⟨c0, hc0, he⟩ := List.mem_map.mp hmem
    have he2 : c0.cid = s.nextCartId := he
    have hlt := hids c0 hc0
    omega
  · simp

theorem c9_fresh_anonymous_cart_witness :
    ∃ c s2 sess2,
      get_or_create_cart ⟨[], [], [], 0, 0⟩ ⟨none, none⟩ = (c, s2, sess2) ∧
      c.items = [] ∧ c.user_id = none ∧ sess2.cart_id = some c.cid ∧
      c.cid ∉ (StoreState.mk [] [] [] 0 0).carts.map (fun c0 => c0.cid) ∧
      c ∈ s2.carts :=
  c9_fresh_anonymous_cart ⟨[], [], [], 0, 0⟩ ⟨none, none⟩ rfl rfl (by simp)

end ECommerce
